import Mathlib

/-
Verification of the websocket client library (frame codec, masked frame codec,
URI parsing, handshake checks, socket key validation) against its
natural-language specification. The definitions below are a shallow embedding
of the Python source: byte strings become `List Nat` with values below 256,
Python `str` becomes `String`, fallible code returns `Option` or `Except`.
-/

namespace WSpec

/-- UTF-8 encoding of one character, as Python `str.encode()` produces it. -/
def utf8EncodeChar (c : Char) : List Nat :=
  let n := c.toNat
  if n < 128 then [n]
  else if n < 2048 then [192 + n / 64, 128 + n % 64]
  else if n < 65536 then [224 + n / 4096, 128 + n / 64 % 64, 128 + n % 64]
  else [240 + n / 262144, 128 + n / 4096 % 64, 128 + n / 64 % 64, 128 + n % 64]

/-- UTF-8 encoding of a whole string, mirroring `data[1].encode()` in the source. -/
def utf8Bytes (s : String) : List Nat := s.data.flatMap utf8EncodeChar

/-- Number of digits of the binary representation Python `bin` style (`0` has one digit). -/
def binDigits (n : Nat) : Nat := if n = 0 then 1 else Nat.log2 n + 1

/-- Byte `i` of the slicing of the zero-padded binary format string of `n` (padded
to at least `w` characters) into 8-character groups, as the source builds
extended length bytes from `format` strings. -/
def binFmtByte (n w i : Nat) : Nat := (n >>> (max w (binDigits n) - 8 * (i + 1))) % 256

/-- The `FrameMessageCodec._yield_size_key` method: 127, 126 or the literal size. -/
def frameSizeKey (data : List Nat) : Nat :=
  if data.length > 65535 then 127 else if data.length > 125 then 126 else data.length

/-- Extended length bytes appended by `FrameMessageCodec.encode` after the size key. -/
def extSizeBytes (size : Nat) : List Nat :=
  if size > 65535 then (List.range 8).map (binFmtByte size 64)
  else if size > 125 then (List.range 2).map (binFmtByte size 16)
  else []

/-- Opcode bytes appended by the `if/elif` chain of `FrameMessageCodec.encode`.
Unknown kinds append nothing. -/
def opcodePrefix (kind : String) : List Nat :=
  if kind = "text" then [129]
  else if kind = "close" then [136]
  else if kind = "ping" then [137]
  else if kind = "pong" then [138]
  else []

/-- The `FrameMessageCodec._yield_bytes` method: the payload bytes unchanged. -/
def yieldBytesPlain (data : List Nat) : List Nat :=
  (List.range data.length).map (fun i => data.getD i 0)

/-- Frame built by `FrameMessageCodec.encode` from opcode bytes and payload bytes. -/
def frameEncodeBytes (op pd : List Nat) : List Nat :=
  op ++ [frameSizeKey pd] ++ extSizeBytes pd.length ++ yieldBytesPlain pd

/-- The `FrameMessageCodec.encode` method on a `(kind, payload)` message. -/
def frameEncode (kind payload : String) : List Nat :=
  frameEncodeBytes (opcodePrefix kind) (utf8Bytes payload)

/-- The masked `_yield_size_key`: the plain size key plus 128 (mask bit). -/
def maskedSizeKey (data : List Nat) : Nat := 128 + frameSizeKey data

/-- The `MaskedFrameMessageCodec._yield_bytes` method: the four mask bytes followed
by the payload bytes XORed with the repeating mask. -/
def yieldBytesMasked (mask data : List Nat) : List Nat :=
  mask ++ (List.range data.length).map (fun i => data.getD i 0 ^^^ mask.getD (i % 4) 0)

/-- Frame built by `MaskedFrameMessageCodec.encode` (mask passed explicitly, standing
for the value produced by the injected mask factory). -/
def maskedEncodeBytes (mask op pd : List Nat) : List Nat :=
  op ++ [maskedSizeKey pd] ++ extSizeBytes pd.length ++ yieldBytesMasked mask pd

/-- The `MaskedFrameMessageCodec.encode` method on a `(kind, payload)` message. -/
def maskedEncode (mask : List Nat) (kind payload : String) : List Nat :=
  maskedEncodeBytes mask (opcodePrefix kind) (utf8Bytes payload)

/-- Opcode dispatch of `FrameMessageCodec.decode`; `none` models the raised exception. -/
def codeKind (code : Nat) : Option String :=
  if code = 1 then some "text"
  else if code = 2 then some "binary"
  else if code = 8 then some "close"
  else if code = 9 then some "ping"
  else if code = 10 then some "pong"
  else none

/-- Message length computed by `FrameMessageCodec.decode` from the size code;
`none` models an index error on a too-short frame. -/
def decodeLength (data : List Nat) (size : Nat) : Option Nat :=
  if size = 127 then
    if 10 ≤ data.length then
      some ((List.range 8).foldl (fun acc i => acc * 256 + data.getD (i + 2) 0) 0)
    else none
  else if size = 126 then
    if 4 ≤ data.length then some (data.getD 2 0 * 256 + data.getD 3 0) else none
  else some size

/-- The `FrameMessageCodec._yield_chars` method applied to `data[1:]`; `none` models
an index error. Each payload byte becomes one character via `chr`. -/
def yieldCharsPlain (data : List Nat) (len : Nat) : Option (List Char) :=
  match data with
  | [] => none
  | d0 :: _ =>
    let size := d0 &&& 127
    let offset := if size = 127 then 9 else if size = 126 then 3 else 1
    if len = 0 ∨ len + offset ≤ data.length then
      some ((List.range len).map (fun i => Char.ofNat (data.getD (i + offset) 0)))
    else none

/-- The `MaskedFrameMessageCodec._yield_chars` method applied to `data[1:]`. -/
def yieldCharsMasked (data : List Nat) (len : Nat) : Option (List Char) :=
  match data with
  | [] => none
  | d0 :: _ =>
    let size := d0 &&& 127
    let mi := if size = 127 then 9 else if size = 126 then 3 else 1
    let offset := if size = 127 then 13 else if size = 126 then 7 else 5
    if mi + 4 ≤ data.length then
      let mask := (List.range 4).map (fun i => data.getD (mi + i) 0)
      if len = 0 ∨ len + offset ≤ data.length then
        some ((List.range len).map
          (fun i => Char.ofNat (data.getD (i + offset) 0 ^^^ mask.getD (i % 4) 0)))
      else none
    else none

/-- The shared `FrameMessageCodec.decode` body, parametric in the virtual
`_yield_chars` override used by the subclass. Frame bytes are below 256
(Python `bytes` elements), so the opcode nibble is `data[0] % 16`. -/
def frameDecodeWith (yc : List Nat → Nat → Option (List Char)) (data : List Nat) :
    Option (String × String) :=
  match data with
  | d0 :: d1 :: _ =>
    (codeKind (d0 % 16)).bind fun kind =>
      (decodeLength data (d1 &&& 127)).bind fun len =>
        (yc (data.drop 1) len).map fun cs => (kind, String.mk cs)
  | _ => none

/-- The `FrameMessageCodec.decode` method. -/
def frameDecode : List Nat → Option (String × String) := frameDecodeWith yieldCharsPlain

/-- The `MaskedFrameMessageCodec.decode` method (inherited body, masked chars). -/
def maskedDecode : List Nat → Option (String × String) := frameDecodeWith yieldCharsMasked

/-- Lower-case ASCII letter test, the `[a-z]` class of the connection regex. -/
def isLowerAZ (c : Char) : Bool := 97 ≤ c.toNat && c.toNat ≤ 122

/-- ASCII digit test, the `[0-9]` class of the connection regex. -/
def isDigit09 (c : Char) : Bool := 48 ≤ c.toNat && c.toNat ≤ 57

/-- Value of a decimal digit string, as Python `int` parses the port group. -/
def natOfDigits (l : List Char) : Nat := l.foldl (fun a c => a * 10 + (c.toNat - 48)) 0

/-- Match of the trailing path group of the connection regex: a slash, then any
characters except newline, with the final anchor also accepting a single
trailing newline. -/
def parsePath (l : List Char) : Option String :=
  match l with
  | '/' :: _ =>
    if '\n' ∈ l then
      if l.getLast? = some '\n' ∧ ¬ ('\n' ∈ l.dropLast) then some (String.mk l.dropLast)
      else none
    else some (String.mk l)
  | _ => none

/-- Match of the connection regex (scheme `[a-z]+`, then `://`, then host
`[~/:]+` excluding slash and colon, then an optional colon-digits port group,
then the path group) against the URI, returning
(scheme, host, optional port, path); `none` models a failed match. -/
def parseURI (s : String) : Option (String × String × Option Nat × String) :=
  let cs := s.data
  let scheme := cs.takeWhile isLowerAZ
  let rest := cs.dropWhile isLowerAZ
  if scheme = [] then none else
  match rest with
  | ':' :: '/' :: '/' :: rest2 =>
    let host := rest2.takeWhile (fun c => !(c = '/' || c = ':'))
    let rest3 := rest2.dropWhile (fun c => !(c = '/' || c = ':'))
    if host = [] then none else
    match rest3 with
    | ':' :: rest4 =>
      let digits := rest4.takeWhile isDigit09
      let rest5 := rest4.dropWhile isDigit09
      if digits = [] then none else
      (parsePath rest5).map (fun path =>
        (String.mk scheme, String.mk host, some (natOfDigits digits), path))
    | _ =>
      (parsePath rest3).map (fun path => (String.mk scheme, String.mk host, none, path))
  | _ => none

/-- Failure modes of `WebSocket.__init__`: `attrError` models the `AttributeError`
raised by calling `.group` on a failed (`None`) match, `invalidURI` the explicit
`ValueError` for a scheme other than `ws`/`wss`. -/
inductive InitError
  | attrError
  | invalidURI
deriving DecidableEq, Repr

/-- Connection data derived by `WebSocket.__init__`: host, port, path and whether
the secure (SSL) socket factory was selected. -/
structure Conn where
  host : String
  port : Nat
  path : String
  secure : Bool
deriving DecidableEq, Repr

/-- Port resolution of `WebSocket.__init__`: explicit port group if present,
else 443 for `wss`, else the initial default 80. -/
def resolvePort (scheme : String) (portOpt : Option Nat) : Nat :=
  match portOpt with
  | some p => p
  | none => if scheme = "wss" then 443 else 80

/-- The `WebSocket.__init__` constructor on a URI. The secure factory is chosen
exactly when the resolved port equals 443. -/
def webSocketInit (uri : String) : Except InitError Conn :=
  match parseURI uri with
  | none => .error .attrError
  | some (scheme, host, portOpt, path) =>
    if ¬ (scheme = "ws" ∨ scheme = "wss") then .error .invalidURI
    else
      let port := resolvePort scheme portOpt
      .ok ⟨host, port, path, port == 443⟩

/-- Failure modes of `WebSocket.handshake`: the rejection for a status other
than 200, and the invalid accept key response. -/
inductive HsError
  | rejected
  | keyMismatch
deriving DecidableEq, Repr

/-- Observable actions of `WebSocket.handshake`, in the order they happen. -/
inductive HsAction
  | sendUpgrade
  | closeSocket
  | raiseErr (e : HsError)
  | succeed
deriving DecidableEq, Repr

/-- Outcome of the response checks of `WebSocket.handshake` given the parsed
HTTP status and the result of `SocketKey.valid` on the accept header. -/
def handshakeResult (status : Nat) (keyOk : Bool) : Except HsError Unit :=
  if status ≠ 200 then .error .rejected
  else if !keyOk then .error .keyMismatch
  else .ok ()

/-- Action trace of `WebSocket.handshake`: the upgrade request is sent, then on
a check failure the socket is closed and only then the error is raised. -/
def handshakeTrace (status : Nat) (keyOk : Bool) : List HsAction :=
  .sendUpgrade ::
    (if status ≠ 200 then [.closeSocket, .raiseErr .rejected]
     else if !keyOk then [.closeSocket, .raiseErr .keyMismatch]
     else [.succeed])

/-- Left rotation of a 32-bit word. -/
def rotl32 (x n : Nat) : Nat := ((x <<< n) ||| (x >>> (32 - n))) % 4294967296

/-- Big-endian bytes of a 32-bit word. -/
def be32 (n : Nat) : List Nat := [n / 16777216 % 256, n / 65536 % 256, n / 256 % 256, n % 256]

/-- Big-endian bytes of a 64-bit word. -/
def be64 (n : Nat) : List Nat := (List.range 8).map (fun i => n / 256 ^ (7 - i) % 256)

/-- SHA-1 message padding: a 0x80 byte, zeros to 56 modulo 64, then the bit length. -/
def sha1Pad (msg : List Nat) : List Nat :=
  msg ++ 128 :: List.replicate ((119 - msg.length % 64) % 64) 0 ++ be64 (8 * msg.length)

/-- Big-endian 32-bit word `i` of a 64-byte block. -/
def word32At (block : List Nat) (i : Nat) : Nat :=
  block.getD (4 * i) 0 * 16777216 + block.getD (4 * i + 1) 0 * 65536 +
    block.getD (4 * i + 2) 0 * 256 + block.getD (4 * i + 3) 0

/-- SHA-1 message schedule: extend 16 words to 80. -/
def sha1Extend (w : Array Nat) : Array Nat :=
  (List.range 64).foldl (fun w j =>
    let i := j + 16
    w.push (rotl32 (w.getD (i - 3) 0 ^^^ w.getD (i - 8) 0 ^^^ w.getD (i - 14) 0 ^^^
      w.getD (i - 16) 0) 1)) w

/-- SHA-1 round function. -/
def sha1F (i b c d : Nat) : Nat :=
  if i < 20 then (b &&& c) ||| ((b ^^^ 4294967295) &&& d)
  else if i < 40 then b ^^^ c ^^^ d
  else if i < 60 then (b &&& c) ||| (b &&& d) ||| (c &&& d)
  else b ^^^ c ^^^ d

/-- SHA-1 round constants. -/
def sha1K (i : Nat) : Nat :=
  if i < 20 then 1518500249
  else if i < 40 then 1859775393
  else if i < 60 then 2400959708
  else 3395469782

/-- SHA-1 compression of one 64-byte block. -/
def sha1Block (h : Nat × Nat × Nat × Nat × Nat) (block : List Nat) :
    Nat × Nat × Nat × Nat × Nat :=
  let w := sha1Extend ((List.range 16).map (word32At block)).toArray
  let (h0, h1, h2, h3, h4) := h
  let st := (List.range 80).foldl (fun st i =>
    let (a, b, c, d, e) := st
    let tmp := (rotl32 a 5 + sha1F i b c d + e + sha1K i + w.getD i 0) % 4294967296
    (tmp, a, rotl32 b 30, c, d)) (h0, h1, h2, h3, h4)
  let (a, b, c, d, e) := st
  ((h0 + a) % 4294967296, (h1 + b) % 4294967296, (h2 + c) % 4294967296,
    (h3 + d) % 4294967296, (h4 + e) % 4294967296)

/-- Split a byte list into 64-byte chunks (fuel form, the fuel bounded by length). -/
def chunks64Aux : Nat → List Nat → List (List Nat)
  | 0, _ => []
  | _ + 1, [] => []
  | fuel + 1, l => l.take 64 :: chunks64Aux fuel (l.drop 64)

/-- SHA-1 digest of a byte list, the semantics of `hashlib.sha1(...).digest()`. -/
def sha1 (msg : List Nat) : List Nat :=
  let padded := sha1Pad msg
  let blocks := chunks64Aux padded.length padded
  let (h0, h1, h2, h3, h4) :=
    blocks.foldl sha1Block (1732584193, 4023233417, 2562383102, 271733878, 3285377520)
  be32 h0 ++ be32 h1 ++ be32 h2 ++ be32 h3 ++ be32 h4

/-- The base64 alphabet. -/
def b64Table : List Char :=
  "ABCDEFGHIJKLMNOPQRSTUVWXYZabcdefghijklmnopqrstuvwxyz0123456789+/".toList

/-- Character of a 6-bit value in the base64 alphabet. -/
def b64Char (n : Nat) : Char := b64Table.getD n '='

/-- Base64 encoding of a byte list, the semantics of `base64.b64encode`. -/
def b64EncodeList : List Nat → List Char
  | [] => []
  | [a] => [b64Char (a / 4), b64Char (a % 4 * 16), '=', '=']
  | [a, b] => [b64Char (a / 4), b64Char (a % 4 * 16 + b / 16), b64Char (b % 16 * 4), '=']
  | a :: b :: c :: rest =>
    b64Char (a / 4) :: b64Char (a % 4 * 16 + b / 16) :: b64Char (b % 16 * 4 + c / 64) ::
      b64Char (c % 64) :: b64EncodeList rest

/-- Base64 encoding returned as a string, as `.decode()` produces in the source. -/
def b64encode (bytes : List Nat) : String := String.mk (b64EncodeList bytes)

/-- The fixed protocol GUID used by `SocketKey.valid`. -/
def serverGUID : String := "258EAFA5-E914-47DA-95CA-C5AB0DC85B11"

/-- The accept token the server is expected to return for a nonce:
base64 of the SHA-1 digest of the nonce concatenated with the GUID. -/
def expectedAccept (nonce : String) : String :=
  b64encode (sha1 (utf8Bytes (nonce ++ serverGUID)))

/-- The `SocketKey.valid` method: the received key must equal the expected
accept token for the stored nonce. -/
def socketKeyValid (nonce key : String) : Bool := key == expectedAccept nonce

/-- A payload whose UTF-8 stream reproduces, one position later, the payload's
own character codes, so that decoding its unmarked binary frame succeeds and
returns the original message. -/
def binChameleon : String :=
  String.mk (Char.ofNat 128 :: List.replicate 50 'A' ++
    ([195, 131, 194, 131, 195, 130, 194, 131, 195, 131,
      194, 130, 195, 130, 194].map Char.ofNat))

/-! ### Basic helper lemmas -/

/-- Mapping a lookup over the index range of a list recovers the mapped list. -/
theorem rangeMapGetD {α β : Type} (l : List α) (d : α) (f : α → β) :
    (List.range l.length).map (fun i => f (l.getD i d)) = l.map f := by
  induction l with
  | nil => rfl
  | cons a l ih =>
    rw [List.length_cons, List.range_succ_eq_map, List.map_cons, List.map_cons, List.map_map]
    refine congrArg (List.cons (f a)) ?_
    rw [← ih]
    refine List.map_congr_left fun i _ => ?_
    simp [Function.comp, List.getD_cons_succ]

/-- The plain `_yield_bytes` returns the payload unchanged. -/
theorem yieldBytesPlain_eq (pd : List Nat) : yieldBytesPlain pd = pd := by
  have h := rangeMapGetD pd 0 id
  simpa [yieldBytesPlain] using h

/-- Reading the character codes of a list back as characters recovers the list. -/
theorem charsOfCodes (cs : List Char) :
    (List.range cs.length).map (fun i => Char.ofNat ((cs.map Char.toNat).getD i 0)) = cs := by
  have h : cs.length = (cs.map Char.toNat).length := (List.length_map _ _).symm
  rw [h, rangeMapGetD (cs.map Char.toNat) 0 Char.ofNat, List.map_map]
  have h2 : List.map (Char.ofNat ∘ Char.toNat) cs = List.map id cs :=
    List.map_congr_left fun c _ => Char.ofNat_toNat c
  rw [h2, List.map_id]

/-- Lookup inside a range-map list. -/
theorem getDRangeMap {α : Type} (g : Nat → α) (n i : Nat) (d : α) (h : i < n) :
    ((List.range n).map g).getD i d = g i := by
  have hlen : i < ((List.range n).map g).length := by simpa using h
  rw [List.getD_eq_getElem _ _ hlen]
  simp [List.getElem_map, List.getElem_range]

/-- Congruence for maps over an index range. -/
theorem mapRangeCongr {α : Type} (n : Nat) (f g : Nat → α) (h : ∀ i < n, f i = g i) :
    (List.range n).map f = (List.range n).map g :=
  List.map_congr_left fun i hi => h i (List.mem_range.mp hi)

/-- Masking with 127 is reduction modulo 128. -/
theorem and127 (x : Nat) : x &&& 127 = x % 128 := by
  have h := Nat.and_pow_two_sub_one_eq_mod x 7
  norm_num at h
  exact h

/-- On ASCII strings, UTF-8 encoding is just the list of character codes. -/
theorem utf8Bytes_ascii (s : String) (h : ∀ c ∈ s.data, c.toNat < 128) :
    utf8Bytes s = s.data.map Char.toNat := by
  suffices hgen : ∀ l : List Char, (∀ c ∈ l, c.toNat < 128) →
      l.flatMap utf8EncodeChar = l.map Char.toNat from hgen s.data h
  intro l
  induction l with
  | nil => exact fun _ => rfl
  | cons a l ih =>
    intro hl
    rw [List.flatMap_cons, List.map_cons,
      ih (fun c hc => hl c (List.mem_cons_of_mem a hc))]
    have ha : a.toNat < 128 := hl a (List.mem_cons_self a l)
    simp [utf8EncodeChar, ha]

/-! ### Length field lemmas -/

/-- Size key of a payload of at most 125 bytes. -/
theorem frameSizeKey_small (pd : List Nat) (h : pd.length ≤ 125) :
    frameSizeKey pd = pd.length := by
  unfold frameSizeKey
  rw [if_neg (by omega), if_neg (by omega)]

/-- Size key of a payload of 126 to 65535 bytes. -/
theorem frameSizeKey_mid (pd : List Nat) (h1 : 125 < pd.length) (h2 : pd.length ≤ 65535) :
    frameSizeKey pd = 126 := by
  unfold frameSizeKey
  rw [if_neg (by omega), if_pos (by omega)]

/-- Size key of a payload of more than 65535 bytes. -/
theorem frameSizeKey_large (pd : List Nat) (h : 65535 < pd.length) :
    frameSizeKey pd = 127 := by
  unfold frameSizeKey
  rw [if_pos (by omega)]

/-- No extended length bytes for sizes of at most 125. -/
theorem extSizeBytes_small (n : Nat) (h : n ≤ 125) : extSizeBytes n = [] := by
  unfold extSizeBytes
  rw [if_neg (by omega), if_neg (by omega)]

/-- Binary digit count bound from a power bound. -/
theorem binDigits_le (n w : Nat) (hw : 0 < w) (h : n < 2 ^ w) : binDigits n ≤ w := by
  unfold binDigits
  split
  · omega
  · rename_i hn
    have := (Nat.log2_lt hn).mpr h
    omega

/-- Extended length bytes in the 16-bit range are the two big-endian bytes. -/
theorem extSizeBytes_mid (n : Nat) (h1 : 125 < n) (h2 : n ≤ 65535) :
    extSizeBytes n = [n / 256, n % 256] := by
  unfold extSizeBytes
  rw [if_neg (by omega), if_pos h1]
  have hd : binDigits n ≤ 16 := binDigits_le n 16 (by omega) (by omega)
  have hw : max 16 (binDigits n) = 16 := Nat.max_eq_left hd
  rw [show List.range 2 = [0, 1] from rfl]
  simp only [List.map_cons, List.map_nil, binFmtByte, hw, Nat.shiftRight_eq_div_pow]
  norm_num
  omega

/-- Extended length bytes in the 64-bit range are the eight big-endian bytes. -/
theorem extSizeBytes_large (n : Nat) (h1 : 65535 < n) (h2 : n < 2 ^ 64) :
    extSizeBytes n = (List.range 8).map (fun i => n / 256 ^ (7 - i) % 256) := by
  unfold extSizeBytes
  rw [if_pos h1]
  refine mapRangeCongr 8 _ _ fun i hi => ?_
  have hd : binDigits n ≤ 64 := binDigits_le n 64 (by omega) h2
  have hw : max 64 (binDigits n) = 64 := Nat.max_eq_left hd
  simp only [binFmtByte, hw, Nat.shiftRight_eq_div_pow]
  have he : 64 - 8 * (i + 1) = 8 * (7 - i) := by omega
  rw [he, Nat.pow_mul]

/-- One step of big-endian base-256 digit reconstruction. -/
theorem digitStep (n k : Nat) : n / 256 ^ (k + 1) * 256 + n / 256 ^ k % 256 = n / 256 ^ k := by
  have hdm := Nat.div_add_mod (n / 256 ^ k) 256
  rw [pow_succ, ← Nat.div_div_eq_div_mul]
  omega

/-- The decoder's eight-byte fold over the encoder's extended length bytes
recovers the payload size. -/
theorem decodeFoldLarge (n : Nat) (h : n < 2 ^ 64) (tail : List Nat) (a b : Nat) :
    (List.range 8).foldl (fun acc i => acc * 256 +
      (a :: b :: ((List.range 8).map (fun i => n / 256 ^ (7 - i) % 256) ++ tail)).getD
        (i + 2) 0) 0 = n := by
  have hfold : (List.range 8).foldl (fun acc i => acc * 256 +
      (a :: b :: ((List.range 8).map (fun i => n / 256 ^ (7 - i) % 256) ++ tail)).getD
        (i + 2) 0) 0 =
      (((((((0 * 256 + n / 256 ^ 7 % 256) * 256 + n / 256 ^ 6 % 256) * 256 +
        n / 256 ^ 5 % 256) * 256 + n / 256 ^ 4 % 256) * 256 + n / 256 ^ 3 % 256) * 256 +
        n / 256 ^ 2 % 256) * 256 + n / 256 ^ 1 % 256) * 256 + n / 256 ^ 0 % 256 := rfl
  rw [hfold]
  have h7 : n / 256 ^ 7 % 256 = n / 256 ^ 7 := by
    refine Nat.mod_eq_of_lt (Nat.div_lt_of_lt_mul ?_)
    have hp : (256 : Nat) ^ 7 * 256 = 2 ^ 64 := by norm_num
    omega
  have d6 := digitStep n 6
  have d5 := digitStep n 5
  have d4 := digitStep n 4
  have d3 := digitStep n 3
  have d2 := digitStep n 2
  have d1 := digitStep n 1
  have d0 := digitStep n 0
  norm_num at d6 d5 d4 d3 d2 d1 d0 h7 ⊢
  omega

/-! ### Round-trip lemmas -/

/-- Shifting a payload lookup past a prefix of known length. -/
theorem charsShiftK (pre pd : List Nat) (n k : Nat) (hk : pre.length = k) :
    (List.range n).map (fun i => Char.ofNat ((pre ++ pd).getD (i + k) 0)) =
    (List.range n).map (fun i => Char.ofNat (pd.getD i 0)) := by
  refine mapRangeCongr n _ _ fun i _ => ?_
  rw [List.getD_append_right _ _ _ _ (by omega)]
  have h2 : i + k - pre.length = i := by omega
  rw [h2]

/-- Unfolding of the decoder body on a frame of at least two bytes. -/
theorem frameDecodeWith_cons (yc : List Nat → Nat → Option (List Char))
    (d0 d1 : Nat) (rest : List Nat) :
    frameDecodeWith yc (d0 :: d1 :: rest) =
    (codeKind (d0 % 16)).bind (fun kind =>
      (decodeLength (d0 :: d1 :: rest) (d1 &&& 127)).bind fun len =>
        (yc ((d0 :: d1 :: rest).drop 1) len).map fun cs => (kind, String.mk cs)) := rfl

/-- Unfolding of the plain character yield on a nonempty tail. -/
theorem yieldCharsPlain_cons (d0 : Nat) (rest : List Nat) (len : Nat) :
    yieldCharsPlain (d0 :: rest) len =
    if len = 0 ∨ len + (if d0 &&& 127 = 127 then 9 else if d0 &&& 127 = 126 then 3 else 1) ≤
        (d0 :: rest).length then
      some ((List.range len).map (fun i => Char.ofNat ((d0 :: rest).getD
        (i + (if d0 &&& 127 = 127 then 9 else if d0 &&& 127 = 126 then 3 else 1)) 0)))
    else none := rfl

/-- Unfolding of the masked character yield on a nonempty tail. -/
theorem yieldCharsMasked_cons (d0 : Nat) (rest : List Nat) (len : Nat) :
    yieldCharsMasked (d0 :: rest) len =
    (if (if d0 &&& 127 = 127 then 9 else if d0 &&& 127 = 126 then 3 else 1) + 4 ≤
        (d0 :: rest).length then
      if len = 0 ∨ len + (if d0 &&& 127 = 127 then 13 else if d0 &&& 127 = 126 then 7 else 5) ≤
          (d0 :: rest).length then
        some ((List.range len).map (fun i => Char.ofNat ((d0 :: rest).getD
          (i + (if d0 &&& 127 = 127 then 13 else if d0 &&& 127 = 126 then 7 else 5)) 0 ^^^
          ((List.range 4).map (fun j => (d0 :: rest).getD
            ((if d0 &&& 127 = 127 then 9 else if d0 &&& 127 = 126 then 3 else 1) + j) 0)).getD
            (i % 4) 0)))
      else none
    else none) := rfl

/-- Core round-trip for the plain codec over a payload given by character codes. -/
theorem plainRoundTrip (kind : String) (op : Nat) (cs : List Char)
    (hop : opcodePrefix kind = [op]) (hck : codeKind (op % 16) = some kind)
    (hL : cs.length < 2 ^ 64) :
    frameDecode (frameEncodeBytes (opcodePrefix kind) (cs.map Char.toNat)) =
      some (kind, String.mk cs) := by
  rw [hop]
  have hpd : (cs.map Char.toNat).length = cs.length := List.length_map _ _
  unfold frameEncodeBytes
  rw [yieldBytesPlain_eq]
  by_cases hsmall : (cs.map Char.toNat).length ≤ 125
  · -- literal length byte
    rw [frameSizeKey_small _ hsmall, extSizeBytes_small _ hsmall]
    have hfr : [op] ++ [(cs.map Char.toNat).length] ++ [] ++ cs.map Char.toNat =
        op :: (cs.map Char.toNat).length :: cs.map Char.toNat := by simp
    rw [hfr]
    unfold frameDecode
    rw [frameDecodeWith_cons, hck]
    simp only [Option.some_bind]
    have hand : (cs.map Char.toNat).length &&& 127 = (cs.map Char.toNat).length := by
      rw [and127]; omega
    rw [hand]
    have hdl : decodeLength (op :: (cs.map Char.toNat).length :: cs.map Char.toNat)
        (cs.map Char.toNat).length = some (cs.map Char.toNat).length := by
      unfold decodeLength
      rw [if_neg (by omega), if_neg (by omega)]
    rw [hdl]
    simp only [Option.some_bind]
    have hdrop : (op :: (cs.map Char.toNat).length :: cs.map Char.toNat).drop 1 =
        (cs.map Char.toNat).length :: cs.map Char.toNat := rfl
    rw [hdrop]
    have hyc : yieldCharsPlain ((cs.map Char.toNat).length :: cs.map Char.toNat)
        (cs.map Char.toNat).length = some cs := by
      rw [yieldCharsPlain_cons, hand]
      have ho : (if (cs.map Char.toNat).length = 127 then 9
          else if (cs.map Char.toNat).length = 126 then 3 else 1) = 1 := by
        rw [if_neg (by omega), if_neg (by omega)]
      rw [ho, if_pos (Or.inr (by simp only [List.length_cons]; omega))]
      refine congrArg some ?_
      rw [show (cs.map Char.toNat).length :: cs.map Char.toNat =
        [(cs.map Char.toNat).length] ++ cs.map Char.toNat from rfl]
      rw [charsShiftK [(cs.map Char.toNat).length] (cs.map Char.toNat)
        (cs.map Char.toNat).length 1 rfl, hpd]
      exact charsOfCodes cs
    rw [hyc]
    simp only [Option.map_some']
  · by_cases hmid : (cs.map Char.toNat).length ≤ 65535
    · -- 16-bit extended length
      rw [frameSizeKey_mid _ (by omega) hmid, extSizeBytes_mid _ (by omega) hmid]
      have hfr : [op] ++ [126] ++ [(cs.map Char.toNat).length / 256,
          (cs.map Char.toNat).length % 256] ++ cs.map Char.toNat =
          op :: 126 :: (cs.map Char.toNat).length / 256 ::
            (cs.map Char.toNat).length % 256 :: cs.map Char.toNat := by simp
      rw [hfr]
      unfold frameDecode
      rw [frameDecodeWith_cons, hck]
      simp only [Option.some_bind]
      rw [show (126 : Nat) &&& 127 = 126 from rfl]
      have hdl : decodeLength (op :: 126 :: (cs.map Char.toNat).length / 256 ::
          (cs.map Char.toNat).length % 256 :: cs.map Char.toNat) 126 =
          some (cs.map Char.toNat).length := by
        unfold decodeLength
        rw [if_neg (by omega), if_pos rfl,
          if_pos (by simp only [List.length_cons]; omega)]
        refine congrArg some ?_
        show (cs.map Char.toNat).length / 256 * 256 + (cs.map Char.toNat).length % 256 = _
        omega
      rw [hdl]
      simp only [Option.some_bind]
      have hdrop : (op :: 126 :: (cs.map Char.toNat).length / 256 ::
          (cs.map Char.toNat).length % 256 :: cs.map Char.toNat).drop 1 =
          126 :: (cs.map Char.toNat).length / 256 ::
            (cs.map Char.toNat).length % 256 :: cs.map Char.toNat := rfl
      rw [hdrop]
      have hyc : yieldCharsPlain (126 :: (cs.map Char.toNat).length / 256 ::
          (cs.map Char.toNat).length % 256 :: cs.map Char.toNat)
          (cs.map Char.toNat).length = some cs := by
        rw [yieldCharsPlain_cons]
        rw [show (126 : Nat) &&& 127 = 126 from rfl]
        rw [show (if (126 : Nat) = 127 then 9 else if (126 : Nat) = 126 then 3 else 1) = 3
          from rfl]
        rw [if_pos (Or.inr (by simp only [List.length_cons]; omega))]
        refine congrArg some ?_
        rw [show 126 :: (cs.map Char.toNat).length / 256 ::
          (cs.map Char.toNat).length % 256 :: cs.map Char.toNat =
          [126, (cs.map Char.toNat).length / 256, (cs.map Char.toNat).length % 256] ++
            cs.map Char.toNat from rfl]
        rw [charsShiftK [126, (cs.map Char.toNat).length / 256, (cs.map Char.toNat).length % 256]
          (cs.map Char.toNat) (cs.map Char.toNat).length 3 rfl, hpd]
        exact charsOfCodes cs
      rw [hyc]
      simp only [Option.map_some']
    · -- 64-bit extended length
      have hbig : 65535 < (cs.map Char.toNat).length := by omega
      have hlt : (cs.map Char.toNat).length < 2 ^ 64 := by omega
      rw [frameSizeKey_large _ hbig, extSizeBytes_large _ hbig hlt]
      have hfr : [op] ++ [127] ++ (List.range 8).map
          (fun i => (cs.map Char.toNat).length / 256 ^ (7 - i) % 256) ++ cs.map Char.toNat =
          op :: 127 :: ((List.range 8).map
            (fun i => (cs.map Char.toNat).length / 256 ^ (7 - i) % 256) ++
              cs.map Char.toNat) := by simp
      rw [hfr]
      unfold frameDecode
      rw [frameDecodeWith_cons, hck]
      simp only [Option.some_bind]
      rw [show (127 : Nat) &&& 127 = 127 from rfl]
      have hdl : decodeLength (op :: 127 :: ((List.range 8).map
          (fun i => (cs.map Char.toNat).length / 256 ^ (7 - i) % 256) ++
            cs.map Char.toNat)) 127 = some (cs.map Char.toNat).length := by
        unfold decodeLength
        rw [if_pos rfl, if_pos (by
          simp only [List.length_cons, List.length_append, List.length_map, List.length_range]
          omega)]
        exact congrArg some (decodeFoldLarge _ hlt _ op 127)
      rw [hdl]
      simp only [Option.some_bind]
      have hdrop : (op :: 127 :: ((List.range 8).map
          (fun i => (cs.map Char.toNat).length / 256 ^ (7 - i) % 256) ++
            cs.map Char.toNat)).drop 1 =
          127 :: ((List.range 8).map
            (fun i => (cs.map Char.toNat).length / 256 ^ (7 - i) % 256) ++
              cs.map Char.toNat) := rfl
      rw [hdrop]
      have hyc : yieldCharsPlain (127 :: ((List.range 8).map
          (fun i => (cs.map Char.toNat).length / 256 ^ (7 - i) % 256) ++
            cs.map Char.toNat)) (cs.map Char.toNat).length = some cs := by
        rw [yieldCharsPlain_cons]
        rw [show (127 : Nat) &&& 127 = 127 from rfl]
        rw [show (if (127 : Nat) = 127 then 9 else if (127 : Nat) = 126 then 3 else 1) = 9
          from rfl]
        rw [if_pos (Or.inr (by
          simp only [List.length_cons, List.length_append, List.length_map, List.length_range]
          omega))]
        refine congrArg some ?_
        rw [show 127 :: ((List.range 8).map
          (fun i => (cs.map Char.toNat).length / 256 ^ (7 - i) % 256) ++
            cs.map Char.toNat) =
          (127 :: (List.range 8).map
            (fun i => (cs.map Char.toNat).length / 256 ^ (7 - i) % 256)) ++
              cs.map Char.toNat from rfl]
        rw [charsShiftK _ _ _ 9 (by simp), hpd]
        exact charsOfCodes cs
      rw [hyc]
      simp only [Option.map_some']

/-- Masked payload lookup past a prefix of known length, with the XOR mask
cancelling itself. -/
theorem charsMaskedShiftK (pre pd mask : List Nat) (n k : Nat) (hk : pre.length = k)
    (hn : n = pd.length) :
    (List.range n).map (fun i => Char.ofNat ((pre ++ (List.range pd.length).map
      (fun j => pd.getD j 0 ^^^ mask.getD (j % 4) 0)).getD (i + k) 0 ^^^
      mask.getD (i % 4) 0)) =
    (List.range n).map (fun i => Char.ofNat (pd.getD i 0)) := by
  refine mapRangeCongr n _ _ fun i hi => ?_
  rw [List.getD_append_right _ _ _ _ (by omega)]
  have h2 : i + k - pre.length = i := by omega
  rw [h2, getDRangeMap _ _ _ _ (by omega), Nat.xor_cancel_right]

/-- Core round-trip for the masked codec over a payload given by character codes,
for an arbitrary four-byte mask. -/
theorem maskedRoundTrip (kind : String) (op : Nat) (cs : List Char) (m0 m1 m2 m3 : Nat)
    (hop : opcodePrefix kind = [op]) (hck : codeKind (op % 16) = some kind)
    (hL : cs.length < 2 ^ 64) :
    maskedDecode (maskedEncodeBytes [m0, m1, m2, m3] (opcodePrefix kind)
      (cs.map Char.toNat)) = some (kind, String.mk cs) := by
  rw [hop]
  have hpd : (cs.map Char.toNat).length = cs.length := List.length_map _ _
  unfold maskedEncodeBytes yieldBytesMasked
  by_cases hsmall : (cs.map Char.toNat).length ≤ 125
  · -- literal length byte
    have hsk : maskedSizeKey (cs.map Char.toNat) = 128 + (cs.map Char.toNat).length := by
      unfold maskedSizeKey
      rw [frameSizeKey_small _ hsmall]
    rw [hsk, extSizeBytes_small _ hsmall]
    have hfr : [op] ++ [128 + (cs.map Char.toNat).length] ++ [] ++
        ([m0, m1, m2, m3] ++ (List.range (cs.map Char.toNat).length).map
          (fun i => (cs.map Char.toNat).getD i 0 ^^^ [m0, m1, m2, m3].getD (i % 4) 0)) =
        op :: (128 + (cs.map Char.toNat).length) :: m0 :: m1 :: m2 :: m3 ::
          (List.range (cs.map Char.toNat).length).map
            (fun i => (cs.map Char.toNat).getD i 0 ^^^ [m0, m1, m2, m3].getD (i % 4) 0) := by
      simp
    rw [hfr]
    unfold maskedDecode
    rw [frameDecodeWith_cons, hck]
    simp only [Option.some_bind]
    have hand : (128 + (cs.map Char.toNat).length) &&& 127 = (cs.map Char.toNat).length := by
      rw [and127]; omega
    rw [hand]
    have hdl : decodeLength (op :: (128 + (cs.map Char.toNat).length) :: m0 :: m1 :: m2 :: m3 ::
        (List.range (cs.map Char.toNat).length).map
          (fun i => (cs.map Char.toNat).getD i 0 ^^^ [m0, m1, m2, m3].getD (i % 4) 0))
        (cs.map Char.toNat).length = some (cs.map Char.toNat).length := by
      unfold decodeLength
      rw [if_neg (by omega), if_neg (by omega)]
    rw [hdl]
    simp only [Option.some_bind]
    rw [show (op :: (128 + (cs.map Char.toNat).length) :: m0 :: m1 :: m2 :: m3 ::
        (List.range (cs.map Char.toNat).length).map
          (fun i => (cs.map Char.toNat).getD i 0 ^^^ [m0, m1, m2, m3].getD (i % 4) 0)).drop 1 =
        (128 + (cs.map Char.toNat).length) :: m0 :: m1 :: m2 :: m3 ::
          (List.range (cs.map Char.toNat).length).map
            (fun i => (cs.map Char.toNat).getD i 0 ^^^ [m0, m1, m2, m3].getD (i % 4) 0)
        from rfl]
    have hyc : yieldCharsMasked ((128 + (cs.map Char.toNat).length) :: m0 :: m1 :: m2 :: m3 ::
        (List.range (cs.map Char.toNat).length).map
          (fun i => (cs.map Char.toNat).getD i 0 ^^^ [m0, m1, m2, m3].getD (i % 4) 0))
        (cs.map Char.toNat).length = some cs := by
      rw [yieldCharsMasked_cons, hand]
      have ho : (if (cs.map Char.toNat).length = 127 then 9
          else if (cs.map Char.toNat).length = 126 then 3 else 1) = 1 := by
        rw [if_neg (by omega), if_neg (by omega)]
      have ho2 : (if (cs.map Char.toNat).length = 127 then 13
          else if (cs.map Char.toNat).length = 126 then 7 else 5) = 5 := by
        rw [if_neg (by omega), if_neg (by omega)]
      rw [ho, ho2]
      rw [if_pos (by simp only [List.length_cons]; omega)]
      rw [if_pos (Or.inr (by
        simp only [List.length_cons, List.length_map, List.length_range]; omega))]
      refine congrArg some ?_
      rw [show (List.range 4).map (fun j => ((128 + (cs.map Char.toNat).length) :: m0 :: m1 ::
          m2 :: m3 :: (List.range (cs.map Char.toNat).length).map
            (fun i => (cs.map Char.toNat).getD i 0 ^^^ [m0, m1, m2, m3].getD (i % 4) 0)).getD
              (1 + j) 0) = [m0, m1, m2, m3] from rfl]
      rw [show (128 + (cs.map Char.toNat).length) :: m0 :: m1 :: m2 :: m3 ::
          (List.range (cs.map Char.toNat).length).map
            (fun i => (cs.map Char.toNat).getD i 0 ^^^ [m0, m1, m2, m3].getD (i % 4) 0) =
          [128 + (cs.map Char.toNat).length, m0, m1, m2, m3] ++
            (List.range (cs.map Char.toNat).length).map
              (fun i => (cs.map Char.toNat).getD i 0 ^^^ [m0, m1, m2, m3].getD (i % 4) 0)
          from rfl]
      rw [charsMaskedShiftK [128 + (cs.map Char.toNat).length, m0, m1, m2, m3]
        (cs.map Char.toNat) [m0, m1, m2, m3] (cs.map Char.toNat).length 5 rfl rfl, hpd]
      exact charsOfCodes cs
    rw [hyc]
    simp only [Option.map_some']
  · by_cases hmid : (cs.map Char.toNat).length ≤ 65535
    · -- 16-bit extended length
      have hsk : maskedSizeKey (cs.map Char.toNat) = 254 := by
        unfold maskedSizeKey
        rw [frameSizeKey_mid _ (by omega) hmid]
      rw [hsk, extSizeBytes_mid _ (by omega) hmid]
      have hfr : [op] ++ [254] ++ [(cs.map Char.toNat).length / 256,
          (cs.map Char.toNat).length % 256] ++
          ([m0, m1, m2, m3] ++ (List.range (cs.map Char.toNat).length).map
            (fun i => (cs.map Char.toNat).getD i 0 ^^^ [m0, m1, m2, m3].getD (i % 4) 0)) =
          op :: 254 :: (cs.map Char.toNat).length / 256 :: (cs.map Char.toNat).length % 256 ::
            m0 :: m1 :: m2 :: m3 :: (List.range (cs.map Char.toNat).length).map
              (fun i => (cs.map Char.toNat).getD i 0 ^^^ [m0, m1, m2, m3].getD (i % 4) 0) := by
        simp
      rw [hfr]
      unfold maskedDecode
      rw [frameDecodeWith_cons, hck]
      simp only [Option.some_bind]
      rw [show (254 : Nat) &&& 127 = 126 from rfl]
      have hdl : decodeLength (op :: 254 :: (cs.map Char.toNat).length / 256 ::
          (cs.map Char.toNat).length % 256 :: m0 :: m1 :: m2 :: m3 ::
          (List.range (cs.map Char.toNat).length).map
            (fun i => (cs.map Char.toNat).getD i 0 ^^^ [m0, m1, m2, m3].getD (i % 4) 0)) 126 =
          some (cs.map Char.toNat).length := by
        unfold decodeLength
        rw [if_neg (by omega), if_pos rfl,
          if_pos (by simp only [List.length_cons]; omega)]
        refine congrArg some ?_
        show (cs.map Char.toNat).length / 256 * 256 + (cs.map Char.toNat).length % 256 = _
        omega
      rw [hdl]
      simp only [Option.some_bind]
      rw [show (op :: 254 :: (cs.map Char.toNat).length / 256 ::
          (cs.map Char.toNat).length % 256 :: m0 :: m1 :: m2 :: m3 ::
          (List.range (cs.map Char.toNat).length).map
            (fun i => (cs.map Char.toNat).getD i 0 ^^^
              [m0, m1, m2, m3].getD (i % 4) 0)).drop 1 =
          254 :: (cs.map Char.toNat).length / 256 :: (cs.map Char.toNat).length % 256 ::
            m0 :: m1 :: m2 :: m3 :: (List.range (cs.map Char.toNat).length).map
              (fun i => (cs.map Char.toNat).getD i 0 ^^^ [m0, m1, m2, m3].getD (i % 4) 0)
          from rfl]
      have hyc : yieldCharsMasked (254 :: (cs.map Char.toNat).length / 256 ::
          (cs.map Char.toNat).length % 256 :: m0 :: m1 :: m2 :: m3 ::
          (List.range (cs.map Char.toNat).length).map
            (fun i => (cs.map Char.toNat).getD i 0 ^^^ [m0, m1, m2, m3].getD (i % 4) 0))
          (cs.map Char.toNat).length = some cs := by
        rw [yieldCharsMasked_cons]
        rw [show (254 : Nat) &&& 127 = 126 from rfl]
        rw [show (if (126 : Nat) = 127 then 9 else if (126 : Nat) = 126 then 3 else 1) = 3
          from rfl]
        rw [show (if (126 : Nat) = 127 then 13 else if (126 : Nat) = 126 then 7 else 5) = 7
          from rfl]
        rw [if_pos (by simp only [List.length_cons]; omega)]
        rw [if_pos (Or.inr (by
          simp only [List.length_cons, List.length_map, List.length_range]; omega))]
        refine congrArg some ?_
        rw [show (List.range 4).map (fun j => (254 :: (cs.map Char.toNat).length / 256 ::
            (cs.map Char.toNat).length % 256 :: m0 :: m1 :: m2 :: m3 ::
            (List.range (cs.map Char.toNat).length).map
              (fun i => (cs.map Char.toNat).getD i 0 ^^^
                [m0, m1, m2, m3].getD (i % 4) 0)).getD (3 + j) 0) = [m0, m1, m2, m3]
          from rfl]
        rw [show 254 :: (cs.map Char.toNat).length / 256 :: (cs.map Char.toNat).length % 256 ::
            m0 :: m1 :: m2 :: m3 :: (List.range (cs.map Char.toNat).length).map
              (fun i => (cs.map Char.toNat).getD i 0 ^^^ [m0, m1, m2, m3].getD (i % 4) 0) =
            [254, (cs.map Char.toNat).length / 256, (cs.map Char.toNat).length % 256,
              m0, m1, m2, m3] ++ (List.range (cs.map Char.toNat).length).map
                (fun i => (cs.map Char.toNat).getD i 0 ^^^ [m0, m1, m2, m3].getD (i % 4) 0)
          from rfl]
        rw [charsMaskedShiftK [254, (cs.map Char.toNat).length / 256,
          (cs.map Char.toNat).length % 256, m0, m1, m2, m3]
          (cs.map Char.toNat) [m0, m1, m2, m3] (cs.map Char.toNat).length 7 rfl rfl, hpd]
        exact charsOfCodes cs
      rw [hyc]
      simp only [Option.map_some']
    · -- 64-bit extended length
      have hbig : 65535 < (cs.map Char.toNat).length := by omega
      have hlt : (cs.map Char.toNat).length < 2 ^ 64 := by omega
      have hsk : maskedSizeKey (cs.map Char.toNat) = 255 := by
        unfold maskedSizeKey
        rw [frameSizeKey_large _ hbig]
      rw [hsk, extSizeBytes_large _ hbig hlt]
      have hfr : [op] ++ [255] ++ (List.range 8).map
          (fun i => (cs.map Char.toNat).length / 256 ^ (7 - i) % 256) ++
          ([m0, m1, m2, m3] ++ (List.range (cs.map Char.toNat).length).map
            (fun i => (cs.map Char.toNat).getD i 0 ^^^ [m0, m1, m2, m3].getD (i % 4) 0)) =
          op :: 255 :: ((List.range 8).map
            (fun i => (cs.map Char.toNat).length / 256 ^ (7 - i) % 256) ++
            ([m0, m1, m2, m3] ++ (List.range (cs.map Char.toNat).length).map
              (fun i => (cs.map Char.toNat).getD i 0 ^^^
                [m0, m1, m2, m3].getD (i % 4) 0))) := by
        simp
      rw [hfr]
      unfold maskedDecode
      rw [frameDecodeWith_cons, hck]
      simp only [Option.some_bind]
      rw [show (255 : Nat) &&& 127 = 127 from rfl]
      have hdl : decodeLength (op :: 255 :: ((List.range 8).map
          (fun i => (cs.map Char.toNat).length / 256 ^ (7 - i) % 256) ++
          ([m0, m1, m2, m3] ++ (List.range (cs.map Char.toNat).length).map
            (fun i => (cs.map Char.toNat).getD i 0 ^^^
              [m0, m1, m2, m3].getD (i % 4) 0)))) 127 =
          some (cs.map Char.toNat).length := by
        unfold decodeLength
        rw [if_pos rfl, if_pos (by
          simp only [List.length_cons, List.length_append, List.length_map, List.length_range]
          omega)]
        exact congrArg some (decodeFoldLarge _ hlt _ op 255)
      rw [hdl]
      simp only [Option.some_bind]
      rw [show (op :: 255 :: ((List.range 8).map
          (fun i => (cs.map Char.toNat).length / 256 ^ (7 - i) % 256) ++
          ([m0, m1, m2, m3] ++ (List.range (cs.map Char.toNat).length).map
            (fun i => (cs.map Char.toNat).getD i 0 ^^^
              [m0, m1, m2, m3].getD (i % 4) 0)))).drop 1 =
          255 :: ((List.range 8).map
            (fun i => (cs.map Char.toNat).length / 256 ^ (7 - i) % 256) ++
            ([m0, m1, m2, m3] ++ (List.range (cs.map Char.toNat).length).map
              (fun i => (cs.map Char.toNat).getD i 0 ^^^
                [m0, m1, m2, m3].getD (i % 4) 0)))
        from rfl]
      have hyc : yieldCharsMasked (255 :: ((List.range 8).map
          (fun i => (cs.map Char.toNat).length / 256 ^ (7 - i) % 256) ++
          ([m0, m1, m2, m3] ++ (List.range (cs.map Char.toNat).length).map
            (fun i => (cs.map Char.toNat).getD i 0 ^^^ [m0, m1, m2, m3].getD (i % 4) 0))))
          (cs.map Char.toNat).length = some cs := by
        rw [yieldCharsMasked_cons]
        rw [show (255 : Nat) &&& 127 = 127 from rfl]
        rw [show (if (127 : Nat) = 127 then 9 else if (127 : Nat) = 126 then 3 else 1) = 9
          from rfl]
        rw [show (if (127 : Nat) = 127 then 13 else if (127 : Nat) = 126 then 7 else 5) = 13
          from rfl]
        rw [if_pos (by
          simp only [List.length_cons, List.length_append, List.length_map, List.length_range]
          omega)]
        rw [if_pos (Or.inr (by
          simp only [List.length_cons, List.length_append, List.length_map, List.length_range]
          omega))]
        refine congrArg some ?_
        rw [show (List.range 4).map (fun j => (255 :: ((List.range 8).map
            (fun i => (cs.map Char.toNat).length / 256 ^ (7 - i) % 256) ++
            ([m0, m1, m2, m3] ++ (List.range (cs.map Char.toNat).length).map
              (fun i => (cs.map Char.toNat).getD i 0 ^^^
                [m0, m1, m2, m3].getD (i % 4) 0)))).getD (9 + j) 0) = [m0, m1, m2, m3]
          from rfl]
        rw [show 255 :: ((List.range 8).map
            (fun i => (cs.map Char.toNat).length / 256 ^ (7 - i) % 256) ++
            ([m0, m1, m2, m3] ++ (List.range (cs.map Char.toNat).length).map
              (fun i => (cs.map Char.toNat).getD i 0 ^^^
                [m0, m1, m2, m3].getD (i % 4) 0))) =
            (255 :: ((List.range 8).map
              (fun i => (cs.map Char.toNat).length / 256 ^ (7 - i) % 256) ++
                [m0, m1, m2, m3])) ++ (List.range (cs.map Char.toNat).length).map
                  (fun i => (cs.map Char.toNat).getD i 0 ^^^ [m0, m1, m2, m3].getD (i % 4) 0)
          from rfl]
        rw [charsMaskedShiftK (255 :: ((List.range 8).map
          (fun i => (cs.map Char.toNat).length / 256 ^ (7 - i) % 256) ++ [m0, m1, m2, m3]))
          (cs.map Char.toNat) [m0, m1, m2, m3] (cs.map Char.toNat).length 13 (by simp) rfl,
          hpd]
        exact charsOfCodes cs
      rw [hyc]
      simp only [Option.map_some']

/-- Round-trip of the plain codec on ASCII payload strings. -/
theorem frameRoundTripAscii (kind payload : String)
    (hk : kind = "text" ∨ kind = "close" ∨ kind = "ping" ∨ kind = "pong")
    (hA : ∀ c ∈ payload.data, c.toNat < 128) (hL : payload.data.length < 2 ^ 64) :
    frameDecode (frameEncode kind payload) = some (kind, payload) := by
  unfold frameEncode
  rw [utf8Bytes_ascii payload hA]
  have hmk : String.mk payload.data = payload := rfl
  rcases hk with h | h | h | h <;> subst h
  · exact (plainRoundTrip "text" 129 payload.data rfl rfl hL).trans (by rw [hmk])
  · exact (plainRoundTrip "close" 136 payload.data rfl rfl hL).trans (by rw [hmk])
  · exact (plainRoundTrip "ping" 137 payload.data rfl rfl hL).trans (by rw [hmk])
  · exact (plainRoundTrip "pong" 138 payload.data rfl rfl hL).trans (by rw [hmk])

/-- Round-trip of the masked codec on ASCII payload strings, any four-byte mask. -/
theorem maskedRoundTripAscii (kind payload : String) (mask : List Nat)
    (hk : kind = "text" ∨ kind = "close" ∨ kind = "ping" ∨ kind = "pong")
    (hm : mask.length = 4)
    (hA : ∀ c ∈ payload.data, c.toNat < 128) (hL : payload.data.length < 2 ^ 64) :
    maskedDecode (maskedEncode mask kind payload) = some (kind, payload) := by
  rcases mask with _ | ⟨m0, mask⟩
  · simp at hm
  rcases mask with _ | ⟨m1, mask⟩
  · simp at hm
  rcases mask with _ | ⟨m2, mask⟩
  · simp at hm
  rcases mask with _ | ⟨m3, mask⟩
  · simp at hm
  have hnil : mask = [] := by
    have h0 : mask.length = 0 := by simp only [List.length_cons] at hm; omega
    exact List.eq_nil_of_length_eq_zero h0
  subst hnil
  unfold maskedEncode
  rw [utf8Bytes_ascii payload hA]
  have hmk : String.mk payload.data = payload := rfl
  rcases hk with h | h | h | h <;> subst h
  · exact (maskedRoundTrip "text" 129 payload.data m0 m1 m2 m3 rfl rfl hL).trans (by rw [hmk])
  · exact (maskedRoundTrip "close" 136 payload.data m0 m1 m2 m3 rfl rfl hL).trans (by rw [hmk])
  · exact (maskedRoundTrip "ping" 137 payload.data m0 m1 m2 m3 rfl rfl hL).trans (by rw [hmk])
  · exact (maskedRoundTrip "pong" 138 payload.data m0 m1 m2 m3 rfl rfl hL).trans (by rw [hmk])

/-- Every kind a successful decode can return is one of the five known kinds. -/
theorem decodeKindMem (yc : List Nat → Nat → Option (List Char)) (data : List Nat)
    (k s : String) (h : frameDecodeWith yc data = some (k, s)) :
    k = "text" ∨ k = "binary" ∨ k = "close" ∨ k = "ping" ∨ k = "pong" := by
  rcases data with _ | ⟨d0, _ | ⟨d1, rest⟩⟩
  · exact Option.noConfusion h
  · exact Option.noConfusion h
  · rw [frameDecodeWith_cons] at h
    rcases hck : codeKind (d0 % 16) with _ | k2
    · rw [hck] at h
      exact Option.noConfusion h
    · rw [hck] at h
      simp only [Option.some_bind] at h
      have hk2 : k2 = "text" ∨ k2 = "binary" ∨ k2 = "close" ∨ k2 = "ping" ∨ k2 = "pong" := by
        unfold codeKind at hck
        split_ifs at hck <;>
          first
          | exact Option.noConfusion hck
          | (injection hck with h2; subst h2; tauto)
      rcases hdl : decodeLength (d0 :: d1 :: rest) (d1 &&& 127) with _ | len
      · rw [hdl] at h
        exact Option.noConfusion h
      · rw [hdl] at h
        simp only [Option.some_bind] at h
        rcases hyc : yc ((d0 :: d1 :: rest).drop 1) len with _ | cs2
        · rw [hyc] at h
          exact Option.noConfusion h
        · rw [hyc] at h
          simp only [Option.map_some'] at h
          injection h with h2
          have hfst : k2 = k := congrArg Prod.fst h2
          subst hfst
          exact hk2

/-- The opcode chain of `encode` appends nothing for unsupported kinds. -/
theorem opcodePrefix_unknown (kind : String)
    (h : kind ∉ ["text", "close", "ping", "pong"]) : opcodePrefix kind = [] := by
  unfold opcodePrefix
  rw [if_neg (fun hc => h (by simp [hc])), if_neg (fun hc => h (by simp [hc])),
    if_neg (fun hc => h (by simp [hc])), if_neg (fun hc => h (by simp [hc]))]

/-- Behaviour of the connection constructor on an unparsable URI. -/
theorem webSocketInit_none (uri : String) (h : parseURI uri = none) :
    webSocketInit uri = .error .attrError := by
  unfold webSocketInit
  rw [h]

/-- Behaviour of the connection constructor on a parsed URI. -/
theorem webSocketInit_some (uri scheme host path : String) (portOpt : Option Nat)
    (h : parseURI uri = some (scheme, host, portOpt, path)) :
    webSocketInit uri =
      if ¬ (scheme = "ws" ∨ scheme = "wss") then .error .invalidURI
      else .ok ⟨host, resolvePort scheme portOpt, path,
        resolvePort scheme portOpt == 443⟩ := by
  unfold webSocketInit
  rw [h]

/-! ### Claim theorems -/

/-- Claim C1, counterexample: the round-trip law fails as stated for the payload
consisting of the single character with code point 233, because `encode` emits
its two UTF-8 bytes while `decode` maps each byte back to one character. -/
theorem C1_roundtrip_counterexample :
    frameDecode (frameEncode "text" (String.mk [Char.ofNat 233])) ≠
      some ("text", String.mk [Char.ofNat 233]) ∧
    frameDecode (frameEncode "text" (String.mk [Char.ofNat 233])) =
      some ("text", String.mk [Char.ofNat 195, Char.ofNat 169]) := by
  constructor <;> decide

/-- Claim C1, amended: for every encodable kind (text, close, ping, pong) and
every payload string whose characters all have code points below 128 (and of
representable length), decoding an encoding returns the original pair, for both
the plain codec and the masked codec with any four-byte mask key. -/
theorem C1_roundtrip_amended (kind payload : String) (mask : List Nat)
    (hkind : kind = "text" ∨ kind = "close" ∨ kind = "ping" ∨ kind = "pong")
    (hascii : ∀ c ∈ payload.data, c.toNat < 128)
    (hlen : payload.data.length < 2 ^ 64)
    (hm4 : mask.length = 4) (_hmb : ∀ b ∈ mask, b < 256) :
    frameDecode (frameEncode kind payload) = some (kind, payload) ∧
    maskedDecode (maskedEncode mask kind payload) = some (kind, payload) :=
  ⟨frameRoundTripAscii kind payload hkind hascii hlen,
   maskedRoundTripAscii kind payload mask hkind hm4 hascii hlen⟩

/-- Witness for claim C1 at `("text", "Foo Bar")` and the test-fixture mask. -/
theorem C1_roundtrip_witness :
    frameDecode (frameEncode "text" "Foo Bar") = some ("text", "Foo Bar") ∧
    maskedDecode (maskedEncode [37, 234, 102, 179] "text" "Foo Bar") =
      some ("text", "Foo Bar") :=
  C1_roundtrip_amended "text" "Foo Bar" [37, 234, 102, 179] (Or.inl rfl)
    (by decide) (by decide) (by decide) (by decide)

/-- Claim C2, counterexample: the URI `wss://example.org:8443/x` parses to port
8443 but selects the plain socket factory, not the secure one, because the
source keys the choice on `port == 443` alone. -/
theorem C2_connection_init_counterexample :
    webSocketInit "wss://example.org:8443/x" = .ok ⟨"example.org", 8443, "/x", false⟩ ∧
    webSocketInit "wss://example.org:8443/x" ≠ .ok ⟨"example.org", 8443, "/x", true⟩ :=
  ⟨rfl, fun h =>
    absurd (congrArg (fun r => r.toOption.map Conn.secure) h) (by decide)⟩

/-- Claim C2, amended: constructing a connection parses host, port and path with
defaults 80 for `ws` and 443 for `wss`, and selects the secure transport exactly
when the resolved port equals 443; `ws://example.org/chat` yields
(`example.org`, 80, `/chat`, plain) and `wss://example.org:8443/x` yields port
8443 with a plain transport. -/
theorem C2_connection_init_amended :
    (∀ (uri : String) (c : Conn), webSocketInit uri = .ok c →
      (c.secure = true ↔ c.port = 443)) ∧
    (∀ (uri scheme host path : String) (portOpt : Option Nat),
      parseURI uri = some (scheme, host, portOpt, path) →
      (scheme = "ws" ∨ scheme = "wss") →
      webSocketInit uri = .ok ⟨host, resolvePort scheme portOpt, path,
        resolvePort scheme portOpt == 443⟩) ∧
    webSocketInit "ws://example.org/chat" = .ok ⟨"example.org", 80, "/chat", false⟩ ∧
    webSocketInit "wss://example.org/x" = .ok ⟨"example.org", 443, "/x", true⟩ ∧
    webSocketInit "wss://example.org:8443/x" = .ok ⟨"example.org", 8443, "/x", false⟩ := by
  refine ⟨?_, ?_, rfl, rfl, rfl⟩
  · intro uri c h
    rcases hp : parseURI uri with _ | ⟨s, ho, po, pa⟩
    · rw [webSocketInit_none uri hp] at h
      exact Except.noConfusion h
    · rw [webSocketInit_some uri s ho pa po hp] at h
      by_cases hs : ¬ (s = "ws" ∨ s = "wss")
      · rw [if_pos hs] at h
        exact Except.noConfusion h
      · rw [if_neg hs] at h
        injection h with h2
        subst h2
        simp
  · intro uri s ho pa po hp hs
    rw [webSocketInit_some uri s ho pa po hp, if_neg (by tauto)]

/-- Witness for claim C2 at `wss://example.org/x`. -/
theorem C2_connection_init_witness :
    ((⟨"example.org", 443, "/x", true⟩ : Conn).secure = true ↔
      (⟨"example.org", 443, "/x", true⟩ : Conn).port = 443) ∧
    webSocketInit "wss://example.org/x" =
      .ok ⟨"example.org", resolvePort "wss" none, "/x", resolvePort "wss" none == 443⟩ :=
  ⟨C2_connection_init_amended.1 "wss://example.org/x" ⟨"example.org", 443, "/x", true⟩ rfl,
   C2_connection_init_amended.2.1 "wss://example.org/x" "wss" "example.org" "/x" none rfl
     (Or.inr rfl)⟩

/-- Claim C3, counterexample: a 201 response is a success status, yet the
handshake rejects it, because the source tests `status != 200` rather than
membership in the success range. -/
theorem C3_handshake_errors_counterexample :
    handshakeResult 201 true = .error .rejected ∧ 200 ≤ 201 ∧ 201 < 300 :=
  ⟨rfl, by omega, by omega⟩

/-- Claim C3, amended: the handshake fails with the rejection error exactly when
the status differs from 200 (any other status, success or not, is rejected),
fails with the key-mismatch error exactly when the status is 200 and key
validation fails, and succeeds otherwise. -/
theorem C3_handshake_errors_amended (status : Nat) (keyOk : Bool) :
    (handshakeResult status keyOk = .error .rejected ↔ status ≠ 200) ∧
    (handshakeResult status keyOk = .error .keyMismatch ↔ status = 200 ∧ keyOk = false) ∧
    (handshakeResult status keyOk = .ok () ↔ status = 200 ∧ keyOk = true) := by
  by_cases h : status = 200 <;> cases keyOk <;> simp [handshakeResult, h]

/-- Claim C4: encoding `("text", "Foo Bar")` with mask key `[37, 234, 102, 179]`
produces exactly the opcode byte 0x81, the masked length byte 135, the four mask
bytes verbatim, and the seven payload bytes XORed with the repeating key. -/
theorem C4_deterministic_masked_encode :
    maskedEncode [37, 234, 102, 179] "text" "Foo Bar" =
      [129, 135] ++ [37, 234, 102, 179] ++ (List.range 7).map
        (fun i => (utf8Bytes "Foo Bar").getD i 0 ^^^ [37, 234, 102, 179].getD (i % 4) 0) ∧
    maskedEncode [37, 234, 102, 179] "text" "Foo Bar" =
      [129, 135, 37, 234, 102, 179, 99, 133, 9, 147, 103, 139, 20] := by
  constructor <;> decide

/-- Claim C5: the encoded length field follows the width rule: a payload of at
most 125 bytes writes its length literally, 126 to 65535 bytes write the code
126 and a two-byte big-endian length, more than 65535 bytes (below the 64-bit
bound any real payload satisfies) write the code 127 and an eight-byte
big-endian length. -/
theorem C5_length_field_rule :
    (∀ kind payload : String,
      frameEncode kind payload = frameEncodeBytes (opcodePrefix kind) (utf8Bytes payload)) ∧
    (∀ op pd : List Nat, pd.length ≤ 125 →
      frameEncodeBytes op pd = op ++ pd.length :: pd) ∧
    (∀ op pd : List Nat, 125 < pd.length → pd.length ≤ 65535 →
      frameEncodeBytes op pd = op ++ 126 :: pd.length / 256 :: pd.length % 256 :: pd) ∧
    (∀ op pd : List Nat, 65535 < pd.length → pd.length < 2 ^ 64 →
      frameEncodeBytes op pd =
        op ++ 127 :: ((List.range 8).map (fun i => pd.length / 256 ^ (7 - i) % 256) ++ pd)) := by
  refine ⟨fun kind payload => rfl, ?_, ?_, ?_⟩
  · intro op pd h
    unfold frameEncodeBytes
    rw [frameSizeKey_small pd h, extSizeBytes_small _ h, yieldBytesPlain_eq]
    simp
  · intro op pd h1 h2
    unfold frameEncodeBytes
    rw [frameSizeKey_mid pd h1 h2, extSizeBytes_mid _ h1 h2, yieldBytesPlain_eq]
    simp
  · intro op pd h1 h2
    unfold frameEncodeBytes
    rw [frameSizeKey_large pd h1, extSizeBytes_large _ h1 h2, yieldBytesPlain_eq]
    simp

/-- Witness for claim C5 at the boundary payload sizes 125, 126 and 65536. -/
theorem C5_length_field_rule_witness :
    frameEncodeBytes [129] (List.replicate 125 97) =
      [129] ++ (List.replicate 125 (97 : Nat)).length :: List.replicate 125 97 ∧
    frameEncodeBytes [129] (List.replicate 126 97) =
      [129] ++ 126 :: (List.replicate 126 (97 : Nat)).length / 256 ::
        (List.replicate 126 (97 : Nat)).length % 256 :: List.replicate 126 97 ∧
    frameEncodeBytes [129] (List.replicate 65536 97) =
      [129] ++ 127 :: ((List.range 8).map
        (fun i => (List.replicate 65536 (97 : Nat)).length / 256 ^ (7 - i) % 256) ++
        List.replicate 65536 97) :=
  ⟨C5_length_field_rule.2.1 [129] (List.replicate 125 97)
     (by simp only [List.length_replicate]; norm_num),
   C5_length_field_rule.2.2.1 [129] (List.replicate 126 97)
     (by simp only [List.length_replicate]; norm_num) (by simp only [List.length_replicate]; norm_num),
   C5_length_field_rule.2.2.2 [129] (List.replicate 65536 97)
     (by simp only [List.length_replicate]; norm_num) (by simp only [List.length_replicate]; norm_num)⟩

/-- Claim C6: for every nonce, validating the expected accept token (base64 of
the SHA-1 digest of the nonce concatenated with the protocol GUID) returns
true, and validating any other token returns false. -/
theorem C6_socket_key_validation (nonce : String) :
    socketKeyValid nonce (expectedAccept nonce) = true ∧
    ∀ key : String, key ≠ expectedAccept nonce → socketKeyValid nonce key = false := by
  constructor
  · simp [socketKeyValid]
  · intro key h
    simp [socketKeyValid, h]

set_option maxRecDepth 8192 in
/-- Witness for claim C6 at the protocol sample nonce, with a token differing
from the expected accept value in one character. -/
theorem C6_socket_key_validation_witness :
    socketKeyValid "dGhlIHNhbXBsZSBub25jZQ==" (expectedAccept "dGhlIHNhbXBsZSBub25jZQ==") =
      true ∧
    socketKeyValid "dGhlIHNhbXBsZSBub25jZQ==" "s3pPLMBiTxaQ9kYGzzhZRbK-xOo=" = false :=
  ⟨(C6_socket_key_validation "dGhlIHNhbXBsZSBub25jZQ==").1,
   (C6_socket_key_validation "dGhlIHNhbXBsZSBub25jZQ==").2 "s3pPLMBiTxaQ9kYGzzhZRbK-xOo="
     (by decide)⟩

/-- Claim C7, counterexample: the unparsable URI `nope` makes the constructor
fail with the attribute error from calling `.group` on a failed match, which is
not the InvalidURI value error. -/
theorem C7_invalid_uri_counterexample :
    webSocketInit "nope" = .error .attrError ∧
    InitError.attrError ≠ InitError.invalidURI :=
  ⟨rfl, by decide⟩

/-- Claim C7, amended: the constructor fails with the InvalidURI value error
exactly for URIs the regex parses whose scheme is neither `ws` nor `wss`; a URI
the regex cannot parse instead fails with an attribute error on the `None`
match object. -/
theorem C7_invalid_uri_amended :
    (∀ uri : String, parseURI uri = none → webSocketInit uri = .error .attrError) ∧
    (∀ (uri scheme host path : String) (portOpt : Option Nat),
      parseURI uri = some (scheme, host, portOpt, path) → scheme ≠ "ws" → scheme ≠ "wss" →
      webSocketInit uri = .error .invalidURI) ∧
    (∀ uri : String, webSocketInit uri = .error .invalidURI →
      ∃ (scheme host path : String) (portOpt : Option Nat),
        parseURI uri = some (scheme, host, portOpt, path) ∧
        scheme ≠ "ws" ∧ scheme ≠ "wss") := by
  refine ⟨fun uri h => webSocketInit_none uri h, ?_, ?_⟩
  · intro uri s ho pa po hp h1 h2
    rw [webSocketInit_some uri s ho pa po hp, if_pos (by tauto)]
  · intro uri h
    rcases hp : parseURI uri with _ | ⟨s, ho, po, pa⟩
    · rw [webSocketInit_none uri hp] at h
      injection h with h2
      exact absurd h2 (by decide)
    · by_cases hs : ¬ (s = "ws" ∨ s = "wss")
      · exact ⟨s, ho, pa, po, rfl, fun hc => hs (Or.inl hc), fun hc => hs (Or.inr hc)⟩
      · rw [webSocketInit_some uri s ho pa po hp, if_neg hs] at h
        exact Except.noConfusion h

/-- Witness for claim C7 at an unparsable URI and a parsable non-websocket URI. -/
theorem C7_invalid_uri_witness :
    webSocketInit "nope" = .error .attrError ∧
    webSocketInit "http://example.org/x" = .error .invalidURI :=
  ⟨C7_invalid_uri_amended.1 "nope" rfl,
   C7_invalid_uri_amended.2.1 "http://example.org/x" "http" "example.org" "/x" none rfl
     (by decide) (by decide)⟩

/-- Claim C8: whenever the handshake raises an error, the trace closes the
socket immediately before raising it, so the transport is released before the
error is surfaced. -/
theorem C8_close_before_raise (status : Nat) (keyOk : Bool) (e : HsError)
    (h : HsAction.raiseErr e ∈ handshakeTrace status keyOk) :
    handshakeTrace status keyOk =
      [HsAction.sendUpgrade, HsAction.closeSocket, HsAction.raiseErr e] := by
  by_cases hs : status = 200
  · cases keyOk
    · simp [handshakeTrace, hs] at h ⊢
      exact h.symm
    · simp [handshakeTrace, hs] at h
  · simp [handshakeTrace, hs] at h ⊢
    exact h.symm

/-- Witness for claim C8 at status 404. -/
theorem C8_close_before_raise_witness :
    HsAction.raiseErr HsError.rejected ∈ handshakeTrace 404 true ∧
    handshakeTrace 404 true =
      [HsAction.sendUpgrade, HsAction.closeSocket, HsAction.raiseErr HsError.rejected] :=
  ⟨by decide, C8_close_before_raise 404 true HsError.rejected (by decide)⟩

/-- Claim C9, counterexample: decoding can recover the original kind and even
the whole message for the kind `binary`: the self-describing payload
`binChameleon` encodes to a frame (with no opcode byte) that decodes back to
`("binary", binChameleon)`. -/
theorem C9_unknown_kind_counterexample :
    frameDecode (frameEncode "binary" binChameleon) = some ("binary", binChameleon) := by
  decide

/-- Claim C9, amended: for every kind outside text, close, ping, pong, encode
raises no error and omits the opcode byte, so the frame begins with the
length-key byte; decoding such a frame can never return a kind outside the five
decodable kinds (so a kind like `binary` is recoverable only by coincidence, as
the counterexample shows, and a typical decode such as `("binary", "Foo Bar")`
simply fails). -/
theorem C9_unknown_kind_amended :
    (∀ kind : String, kind ∉ ["text", "close", "ping", "pong"] → ∀ payload : String,
      frameEncode kind payload = frameSizeKey (utf8Bytes payload) ::
        (extSizeBytes (utf8Bytes payload).length ++ utf8Bytes payload)) ∧
    (∀ kind : String, kind ∉ ["text", "binary", "close", "ping", "pong"] →
      ∀ data : List Nat, ∀ k s : String, frameDecode data = some (k, s) → k ≠ kind) ∧
    frameDecode (frameEncode "binary" "Foo Bar") = none := by
  refine ⟨?_, ?_, by decide⟩
  · intro kind hk payload
    unfold frameEncode frameEncodeBytes
    rw [opcodePrefix_unknown kind hk, yieldBytesPlain_eq]
    simp
  · intro kind hk data k s h he
    subst he
    have h5 := decodeKindMem yieldCharsPlain data k s h
    simp only [List.mem_cons, List.not_mem_nil, or_false, not_or] at hk
    rcases h5 with h5 | h5 | h5 | h5 | h5 <;> simp [h5] at hk

/-- Witness for claim C9 at the kind `binary` and a kind outside the decodable
five. -/
theorem C9_unknown_kind_witness :
    frameEncode "binary" "Foo Bar" = frameSizeKey (utf8Bytes "Foo Bar") ::
      (extSizeBytes (utf8Bytes "Foo Bar").length ++ utf8Bytes "Foo Bar") ∧
    "text" ≠ "zzz" :=
  ⟨C9_unknown_kind_amended.1 "binary" (by decide) "Foo Bar",
   C9_unknown_kind_amended.2.1 "zzz" (by decide) (frameEncode "text" "A") "text" "A"
     (by decide)⟩

/-- Claim C10: for payload strings whose characters all have code points below
128 (and of representable length) and the four encodable kinds, decode inverts
encode for both codecs, and the UTF-8 conversion used by encode is exactly the
one-byte-per-character map that decode inverts. -/
theorem C10_ascii_roundtrip (kind payload : String) (mask : List Nat)
    (hkind : kind = "text" ∨ kind = "close" ∨ kind = "ping" ∨ kind = "pong")
    (hascii : ∀ c ∈ payload.data, c.toNat < 128)
    (hlen : payload.data.length < 2 ^ 64)
    (hm4 : mask.length = 4) (_hmb : ∀ b ∈ mask, b < 256) :
    utf8Bytes payload = payload.data.map Char.toNat ∧
    frameDecode (frameEncode kind payload) = some (kind, payload) ∧
    maskedDecode (maskedEncode mask kind payload) = some (kind, payload) :=
  ⟨utf8Bytes_ascii payload hascii,
   frameRoundTripAscii kind payload hkind hascii hlen,
   maskedRoundTripAscii kind payload mask hkind hm4 hascii hlen⟩

/-- Witness for claim C10 at `("ping", "Hello")` and the mask `[1, 2, 3, 4]`. -/
theorem C10_ascii_roundtrip_witness :
    utf8Bytes "Hello" = "Hello".data.map Char.toNat ∧
    frameDecode (frameEncode "ping" "Hello") = some ("ping", "Hello") ∧
    maskedDecode (maskedEncode [1, 2, 3, 4] "ping" "Hello") = some ("ping", "Hello") :=
  C10_ascii_roundtrip "ping" "Hello" [1, 2, 3, 4] (Or.inr (Or.inr (Or.inl rfl)))
    (by decide) (by decide) (by decide) (by decide)

end WSpec
